import Mathlib

/-!
Verification of `src/Application/BootHelper/DisplayVars.c` (NVRAM variable
listing, display and mutation helpers).

The C source is shallowly embedded below.  Byte values are modelled as `Nat`
in `[0, 256)`, 16-bit character units as `Nat` in `[0, 65536)`, and the
64-bit `EFI_STATUS` codes as `Nat` with the error bit at `2 ^ 63`.  Output
produced through `Print` is modelled as the list of emitted character codes
(a `%%` format directive emits a single `%`, code 37).  The variable store's
`GetVariable` / `SetVariable` / `GetNextVariableName` primitives are modelled
as explicit parameters, so every function of the source becomes a pure Lean
function of its inputs plus the store's responses.
-/

/-- The `EFI_SUCCESS` status code. -/
def EFI_SUCCESS : Nat := 0

/-- The error bit of a 64-bit `EFI_STATUS` code. -/
def EFI_ERR_BIT : Nat := 2 ^ 63

/-- The `EFI_BUFFER_TOO_SMALL` status code (error bit plus 5). -/
def EFI_BUFFER_TOO_SMALL : Nat := EFI_ERR_BIT + 5

/-- The `EFI_DEVICE_ERROR` status code (error bit plus 7). -/
def EFI_DEVICE_ERROR : Nat := EFI_ERR_BIT + 7

/-- The `EFI_OUT_OF_RESOURCES` status code (error bit plus 9). -/
def EFI_OUT_OF_RESOURCES : Nat := EFI_ERR_BIT + 9

/-- The `EFI_NOT_FOUND` status code (error bit plus 14). -/
def EFI_NOT_FOUND : Nat := EFI_ERR_BIT + 14

/-- The `EFI_ERROR` macro of the UEFI headers: a status is an error exactly
when its top (sign) bit is set. -/
def EFI_ERROR (s : Nat) : Bool := decide (EFI_ERR_BIT ≤ s)

/-- `HexChar` from `DisplayVars.c` lines 43-49: maps a nibble value to its
lowercase hexadecimal character code (`0`-`9`, then `a`-`f`). -/
def HexChar (c : Nat) : Nat :=
  if c < 10 then c + 48 else c - 10 + 97

/-- One iteration of the `DisplayVarC8` loop (lines 60-70): the characters
emitted for a single byte `b` (with `0 ≤ b < 256`; the signed `CHAR8`
printability test `c >= 32 && c < 127` holds exactly for `32 ≤ b < 127`
once bytes at or above 128 are read back as negative).  A printable byte is
emitted literally, with a literal `%` (code 37) followed by one further `%`
produced by the `Print (L"%%")` directive; any other byte is emitted as `%`
plus two lowercase hex digits, most significant nibble first. -/
def DisplayVarC8Char (isString : Bool) (b : Nat) : List Nat :=
  if isString = true ∧ 32 ≤ b ∧ b < 127 then
    if b = 37 then [37, 37] else [b]
  else
    [37, HexChar ((b >>> 4) &&& 15), HexChar (b &&& 15)]

/-- One iteration of the `DisplayVarC16` loop (lines 93-105): the characters
emitted for a single 16-bit unit `c` (with `0 ≤ c < 65536`; `CHAR16` is
unsigned, and the printability test is only the lower bound `c >= 32`).
A printable unit is emitted literally with `%` doubled; any other unit is
emitted as `%` plus four lowercase hex digits, most significant first. -/
def DisplayVarC16Char (isString : Bool) (c : Nat) : List Nat :=
  if isString = true ∧ 32 ≤ c then
    if c = 37 then [37, 37] else [c]
  else
    [37, HexChar ((c >>> 12) &&& 15), HexChar ((c >>> 8) &&& 15),
     HexChar ((c >>> 4) &&& 15), HexChar (c &&& 15)]

/-- Value of a lowercase hexadecimal digit character, used by the reference
decoders below. -/
def hexVal (c : Nat) : Option Nat :=
  if 48 ≤ c ∧ c ≤ 57 then some (c - 48)
  else if 97 ≤ c ∧ c ≤ 102 then some (c - 87)
  else none

/-- Reference decoder for the escaped text of `DisplayVarC8` (the text
between the quotes), implementing the reading rules of the specification's
rendering contract: a `%` followed by `%` is a literal `%` byte, a `%`
followed by two hex digits is that byte, and any other character stands for
itself.  It exists to witness that the rendering is reversible. -/
def decodeC8 : List Nat → Option (List Nat)
  | [] => some []
  | c :: rest =>
    if c = 37 then
      match rest with
      | [] => none
      | d :: rest2 =>
        if d = 37 then
          (decodeC8 rest2).map (fun t => 37 :: t)
        else
          match rest2 with
          | [] => none
          | l :: rest3 =>
            match hexVal d, hexVal l with
            | some hv, some lv => (decodeC8 rest3).map (fun t => (16 * hv + lv) :: t)
            | _, _ => none
    else
      (decodeC8 rest).map (fun t => c :: t)

/-- Reference decoder for the escaped text of `DisplayVarC16`: a `%`
followed by `%` is a literal `%` unit, a `%` followed by four hex digits is
that unit, and any other character stands for itself. -/
def decodeC16 : List Nat → Option (List Nat)
  | [] => some []
  | c :: rest =>
    if c = 37 then
      match rest with
      | [] => none
      | d :: rest2 =>
        if d = 37 then
          (decodeC16 rest2).map (fun t => 37 :: t)
        else
          match rest2 with
          | h2 :: h3 :: h4 :: rest4 =>
            match hexVal d, hexVal h2, hexVal h3, hexVal h4 with
            | some v1, some v2, some v3, some v4 =>
              (decodeC16 rest4).map (fun t => (4096 * v1 + 256 * v2 + 16 * v3 + v4) :: t)
            | _, _, _, _ => none
          | _ => none
    else
      (decodeC16 rest).map (fun t => c :: t)

/-- Reinterpretation of an even-length byte sequence as little-endian 16-bit
units, modelling the `(CHAR16 *)Data` cast of `DisplayVar` line 125. -/
def bytesToUnits : List Nat → List Nat
  | b0 :: b1 :: rest => (b0 + 256 * b1) :: bytesToUnits rest
  | _ => []

/-- Inverse reinterpretation: 16-bit units back to little-endian bytes. -/
def unitsToBytes : List Nat → List Nat
  | [] => []
  | u :: rest => u % 256 :: u / 256 :: unitsToBytes rest

/-- `EFI_GUID` modelled structurally; `CompareMem (...) == 0` over the
full 16 bytes corresponds to structural equality. -/
structure EfiGuid where
  data1 : Nat
  data2 : Nat
  data3 : Nat
  data4 : List Nat
deriving DecidableEq

/-- `gEfiQemuC16lGuid1` (`EFI_QEMU_C16_GUID_1`, lines 35-36, 40). -/
def gEfiQemuC16lGuid1 : EfiGuid :=
  ⟨0x158DEF5A, 0xF656, 0x419C, [0xB0, 0x27, 0x7A, 0x31, 0x92, 0xC0, 0x79, 0xD2]⟩

/-- `gEfiQemuC16lGuid2` (`EFI_QEMU_C16_GUID_2`, lines 37-38, 41). -/
def gEfiQemuC16lGuid2 : EfiGuid :=
  ⟨0x0053D9D6, 0x2659, 0x4599, [0xA2, 0x6B, 0xEF, 0x45, 0x36, 0xE6, 0x31, 0xA9]⟩

/-- The unit-width decision of `DisplayVar` lines 121-124: width 2 exactly
when the byte size has a clear low bit (`(DataSize & 1) == 0`) and the GUID
compares equal to one of the two QEMU wide-string GUIDs; otherwise width 1. -/
def DisplayVarWidth (guid : EfiGuid) (dataSize : Nat) : Nat :=
  if dataSize &&& 1 = 0 ∧ (guid = gEfiQemuC16lGuid1 ∨ guid = gEfiQemuC16lGuid2)
  then 2 else 1

/-- Little-endian unsigned value of a byte sequence, modelling the
`((UINT64*)Data)[0]` / `((UINT32*)Data)[0]` / ... reads of lines 74-80. -/
def LeValue : List Nat → Nat
  | [] => 0
  | b :: rest => b + 256 * LeValue rest

/-- Fixed-width lowercase hexadecimal rendering with `w` digits, most
significant nibble first, modelling the `%016lx` / `%08x` / `%04x` / `%02x`
format directives of lines 74-80. -/
def HexFixed (w v : Nat) : List Nat :=
  (List.range w).map (fun i => HexChar ((v >>> (4 * (w - 1 - i))) &&& 15))

/-- The optional numeric dump appended by `DisplayVarC8` lines 73-81: a
space, `0x`, and the fixed-width little-endian hex value, only for byte
lengths 8, 4, 2, 1 (tested in that order); empty otherwise. -/
def NumericDump (data : List Nat) : List Nat :=
  if data.length = 8 then [32, 48, 120] ++ HexFixed 16 (LeValue data)
  else if data.length = 4 then [32, 48, 120] ++ HexFixed 8 (LeValue data)
  else if data.length = 2 then [32, 48, 120] ++ HexFixed 4 (LeValue data)
  else if data.length = 1 then [32, 48, 120] ++ HexFixed 2 (LeValue data)
  else []

/-- Full output of `DisplayVarC8` (lines 52-82): a `"` (code 34), the
escaped bytes, a closing `"`, then the numeric dump when applicable. -/
def DisplayVarC8 (data : List Nat) (isString : Bool) : List Nat :=
  [34] ++ data.flatMap (DisplayVarC8Char isString) ++ [34] ++ NumericDump data

/-- Full output of `DisplayVarC16` (lines 85-107): `L` (code 76) and `"`,
the escaped units, and a closing `"`.  No numeric dump is produced. -/
def DisplayVarC16 (units : List Nat) (isString : Bool) : List Nat :=
  [76, 34] ++ units.flatMap (DisplayVarC16Char isString) ++ [34]

/-- Full output of `DisplayVar` (lines 111-129): dispatches on the GUID and
byte-size parity; the wide path reinterprets the data as `DataSize >> 1`
little-endian 16-bit units. -/
def DisplayVar (guid : EfiGuid) (data : List Nat) (isString : Bool) : List Nat :=
  if DisplayVarWidth guid data.length = 2 then
    DisplayVarC16 (bytesToUnits data) isString
  else
    DisplayVarC8 data isString

/-- One response of the store's `GetVariable` primitive: either the variable
is present with a definite size and content (the call then succeeds when the
caller's buffer is large enough and reports `EFI_BUFFER_TOO_SMALL` with the
required size otherwise), or the call fails with the given status code
(`EFI_NOT_FOUND` for an absent variable, or any other error). -/
inductive VarResp where
  | found (size : Nat) (data : List Nat)
  | fail (code : Nat)
deriving DecidableEq

/-- Result of the buffer-growth loop of `GetNvramValue` (lines 144-161):
the final status, the final `*DataSize`, the fetched bytes (empty unless the
status is `EFI_SUCCESS`), the number of `GetVariable` calls issued, and
whether `AllocatePool` was ever invoked (`*Data` is non-null exactly when it
was). -/
structure FetchOut where
  status : Nat
  size : Nat
  data : List Nat
  calls : Nat
  allocated : Bool
deriving DecidableEq

/-- The `do ... while (Status == EFI_BUFFER_TOO_SMALL)` loop of
`GetNvramValue` (lines 150-161), with the store's behaviour given as the
response to the `k`-th call.  `buf` is the current `*DataSize` capacity and
`alloc` records whether `AllocatePool` has run (allocation is modelled as
always succeeding).  `fuel` bounds the number of iterations; `none` means
the bound was exhausted (the C loop is unbounded). -/
def getLoop (store : Nat → VarResp) : Nat → Nat → Nat → Bool → Option FetchOut
  | 0, _, _, _ => none
  | fuel + 1, k, buf, alloc =>
    match store k with
    | .found n d =>
      if buf < n then getLoop store fuel (k + 1) n true
      else some ⟨EFI_SUCCESS, n, d, k + 1, alloc⟩
    | .fail c =>
      if c = EFI_BUFFER_TOO_SMALL then getLoop store fuel (k + 1) buf true
      else some ⟨c, buf, [], k + 1, alloc⟩

/-- Store responses of a static, consistent store holding `v` for the
queried key: every `GetVariable` call sees the same content. -/
def respOf (v : Option (List Nat)) : Nat → VarResp :=
  fun _ =>
    match v with
    | some d => .found d.length d
    | none => .fail EFI_NOT_FOUND

/-- Result of one `ToggleOrSetVar` invocation: the returned status, the
`SetVariable` calls issued (as `(DataSize, Data)` pairs; `(0, [])` is the
delete of line 349), and the variable's content afterwards. -/
structure MutOut where
  status : Nat
  writes : List (Nat × List Nat)
  post : Option (List Nat)
deriving DecidableEq

/-- Effect of one `SetVariable` call on the variable's content, honouring
the status the store returns for that call: a failed write leaves the
content unchanged, a successful write with size 0 deletes, and a successful
write with a positive size installs the bytes. -/
def setVar (setStatus : Nat → List Nat → Nat) (cur : Option (List Nat))
    (len : Nat) (val : List Nat) : Option (List Nat) :=
  if EFI_ERROR (setStatus len val) = true then cur
  else if len = 0 then none
  else some val

/-- `ToggleOrSetVar` (lines 321-370) against a static store holding `v` for
the queried key.  The fetch runs the real `getLoop` (fuel 2 suffices for a
static store).  Note that the source discards the status of both
`SetVariable` calls and returns `EFI_SUCCESS` (line 369) whenever the
initial fetch did not fail hard; `setStatus` gives the status the store
would return for each write and only influences the post-state. -/
def ToggleOrSetVar (setStatus : Nat → List Nat → Nat) (v : Option (List Nat))
    (pref : List Nat) (toggle : Bool) : Option MutOut :=
  match getLoop (respOf v) 2 0 0 false with
  | none => none
  | some out =>
    if out.status ≠ EFI_NOT_FOUND ∧ EFI_ERROR out.status = true then
      some ⟨out.status, [], v⟩
    else if out.status ≠ EFI_NOT_FOUND ∧ out.size = pref.length ∧ out.data = pref then
      if toggle then
        some ⟨EFI_SUCCESS, [(0, [])], setVar setStatus v 0 []⟩
      else
        some ⟨EFI_SUCCESS, [], v⟩
    else
      some ⟨EFI_SUCCESS, [(pref.length, pref)], setVar setStatus v pref.length pref⟩

/-- Two successive `ToggleOrSetVar` invocations with the same key and
desired value, the second one seeing the store state the first one left. -/
def ToggleOrSetVarTwice (setStatus : Nat → List Nat → Nat) (v : Option (List Nat))
    (pref : List Nat) (toggle : Bool) : Option (MutOut × MutOut) :=
  match ToggleOrSetVar setStatus v pref toggle with
  | none => none
  | some r1 =>
    match ToggleOrSetVar setStatus r1.post pref toggle with
    | none => none
    | some r2 => some (r1, r2)

/-- A store whose writes always succeed. -/
def goodSet : Nat → List Nat → Nat := fun _ _ => EFI_SUCCESS

/-- A store whose writes always fail with `EFI_DEVICE_ERROR`. -/
def badSet : Nat → List Nat → Nat := fun _ _ => EFI_DEVICE_ERROR

/-- The keystroke lowercasing of `ListVars` line 308: characters `A`-`Z`
are shifted to `a`-`z`, all others kept. -/
def lowerKey (c : Nat) : Nat :=
  if 65 ≤ c ∧ c ≤ 90 then c - 65 + 97 else c

/-- The main loop of `ListVars` (lines 259-316) with the enumeration
resolved: `names` is the sequence of names the store's
`GetNextVariableName` yields before reporting `EFI_NOT_FOUND` (the inner
name-buffer growth loop is elided, with `ReallocatePool` assumed to
succeed, mirroring the growth protocol proved about `getLoop`).
`display` gives the status `DisplayNvramValue` returns for each name, and
`keys` is the operator's keystroke stream (consumed only while `showAll` is
still false).  The result is the returned status paired with the names
displayed, in order. -/
def listVarsLoop (display : List Nat → Nat) (keys : Nat → Nat) :
    List (List Nat) → Nat → Bool → Nat × List (List Nat)
  | [], _, _ => (EFI_NOT_FOUND, [])
  | n :: rest, ki, showAll =>
    if EFI_ERROR (display n) = true then (display n, [n])
    else if showAll then
      let r := listVarsLoop display keys rest ki true
      (r.1, n :: r.2)
    else
      let c := lowerKey (keys ki)
      if c = 113 ∨ c = 120 then (EFI_SUCCESS, [n])
      else
        let r := listVarsLoop display keys rest (ki + 1) (decide (c = 97))
        (r.1, n :: r.2)

/-- `ListVars` (lines 238-317): the loop started with key index 0 and
`showAll = FALSE`. -/
def ListVars (display : List Nat → Nat) (keys : Nat → Nat)
    (names : List (List Nat)) : Nat × List (List Nat) :=
  listVarsLoop display keys names 0 false

/-- `HexChar` never produces the escape character `%` (code 37). -/
theorem HexChar_ne_37 (d : Nat) : HexChar d ≠ 37 := by
  unfold HexChar
  split <;> omega

/-- `hexVal` inverts `HexChar` on nibble values. -/
theorem hexVal_HexChar : ∀ d, d < 16 → hexVal (HexChar d) = some d := by
  decide

/-- Masking with 15 keeps the value below 16. -/
theorem and15_lt (x : Nat) : x &&& 15 < 16 :=
  lt_of_le_of_lt Nat.and_le_right (by norm_num)

/-- Masking with 15 is reduction modulo 16. -/
theorem and15_eq_mod (x : Nat) : x &&& 15 = x % 16 := by
  have h := Nat.and_pow_two_sub_one_eq_mod x 4
  norm_num at h
  exact h

/-- Reassembling the two nibbles of a byte gives the byte back. -/
theorem nibbles8 (b : Nat) (hb : b < 256) :
    16 * ((b >>> 4) &&& 15) + (b &&& 15) = b := by
  rw [and15_eq_mod, and15_eq_mod, Nat.shiftRight_eq_div_pow]
  norm_num
  omega

/-- Reassembling the four nibbles of a 16-bit unit gives the unit back. -/
theorem nibbles16 (c : Nat) (hc : c < 65536) :
    4096 * ((c >>> 12) &&& 15) + 256 * ((c >>> 8) &&& 15) +
      16 * ((c >>> 4) &&& 15) + (c &&& 15) = c := by
  rw [and15_eq_mod, and15_eq_mod, and15_eq_mod, and15_eq_mod,
    Nat.shiftRight_eq_div_pow, Nat.shiftRight_eq_div_pow, Nat.shiftRight_eq_div_pow]
  norm_num
  omega

/-- Decoding the characters emitted for one byte prepends that byte. -/
theorem decodeC8_emit (s : Bool) (b : Nat) (hb : b < 256) (tl : List Nat) :
    decodeC8 (DisplayVarC8Char s b ++ tl) = (decodeC8 tl).map (fun t => b :: t) := by
  by_cases hp : s = true ∧ 32 ≤ b ∧ b < 127
  · by_cases h37 : b = 37
    · subst h37
      simp only [DisplayVarC8Char, if_pos hp, if_pos rfl, List.cons_append,
        List.nil_append]
      rw [decodeC8.eq_def]
      simp
    · simp only [DisplayVarC8Char, if_pos hp, if_neg h37, List.cons_append,
        List.nil_append]
      rw [decodeC8.eq_def]
      simp [h37]
  · have h1 : hexVal (HexChar ((b >>> 4) &&& 15)) = some ((b >>> 4) &&& 15) :=
      hexVal_HexChar _ (and15_lt _)
    have h2 : hexVal (HexChar (b &&& 15)) = some (b &&& 15) :=
      hexVal_HexChar _ (and15_lt _)
    simp [DisplayVarC8Char, hp, decodeC8, HexChar_ne_37, h1, h2, nibbles8 b hb]

/-- Decoding the characters emitted for one 16-bit unit prepends that unit. -/
theorem decodeC16_emit (s : Bool) (c : Nat) (hc : c < 65536) (tl : List Nat) :
    decodeC16 (DisplayVarC16Char s c ++ tl) = (decodeC16 tl).map (fun t => c :: t) := by
  by_cases hp : s = true ∧ 32 ≤ c
  · by_cases h37 : c = 37
    · subst h37
      simp only [DisplayVarC16Char, if_pos hp, if_pos rfl, List.cons_append,
        List.nil_append]
      rw [decodeC16.eq_def]
      simp
    · simp only [DisplayVarC16Char, if_pos hp, if_neg h37, List.cons_append,
        List.nil_append]
      rw [decodeC16.eq_def]
      simp [h37]
  · have h1 : hexVal (HexChar ((c >>> 12) &&& 15)) = some ((c >>> 12) &&& 15) :=
      hexVal_HexChar _ (and15_lt _)
    have h2 : hexVal (HexChar ((c >>> 8) &&& 15)) = some ((c >>> 8) &&& 15) :=
      hexVal_HexChar _ (and15_lt _)
    have h3 : hexVal (HexChar ((c >>> 4) &&& 15)) = some ((c >>> 4) &&& 15) :=
      hexVal_HexChar _ (and15_lt _)
    have h4 : hexVal (HexChar (c &&& 15)) = some (c &&& 15) :=
      hexVal_HexChar _ (and15_lt _)
    simp [DisplayVarC16Char, hp, decodeC16, HexChar_ne_37, h1, h2, h3, h4, nibbles16 c hc]

/-- The reference decoder inverts the byte-wise rendering. -/
theorem decodeC8_round : ∀ (s : Bool) (B : List Nat), (∀ b ∈ B, b < 256) →
    decodeC8 (B.flatMap (DisplayVarC8Char s)) = some B
  | _, [], _ => rfl
  | s, b :: B, h => by
    rw [List.flatMap_cons, decodeC8_emit s b (h b (by simp)),
      decodeC8_round s B (fun x hx => h x (by simp [hx]))]
    rfl

/-- The reference decoder inverts the unit-wise rendering. -/
theorem decodeC16_round : ∀ (s : Bool) (U : List Nat), (∀ u ∈ U, u < 65536) →
    decodeC16 (U.flatMap (DisplayVarC16Char s)) = some U
  | _, [], _ => rfl
  | s, u :: U, h => by
    rw [List.flatMap_cons, decodeC16_emit s u (h u (by simp)),
      decodeC16_round s U (fun x hx => h x (by simp [hx]))]
    rfl

/-- Units obtained from bytes below 256 stay below 65536. -/
theorem bytesToUnits_lt : ∀ (B : List Nat), (∀ b ∈ B, b < 256) →
    ∀ u ∈ bytesToUnits B, u < 65536
  | [], _ => by simp [bytesToUnits]
  | [b], _ => by simp [bytesToUnits]
  | b0 :: b1 :: rest, h => by
    have h0 : b0 < 256 := h b0 (by simp)
    have h1 : b1 < 256 := h b1 (by simp)
    intro u hu
    rw [bytesToUnits, List.mem_cons] at hu
    rcases hu with hu | hu
    · omega
    · exact bytesToUnits_lt rest (fun x hx => h x (by simp [hx])) u hu

/-- Splitting units back into bytes undoes the little-endian pairing on
even-length byte sequences. -/
theorem unitsToBytes_bytesToUnits : ∀ (B : List Nat), (∀ b ∈ B, b < 256) →
    B.length % 2 = 0 → unitsToBytes (bytesToUnits B) = B
  | [], _, _ => rfl
  | [b], _, h => by simp at h
  | b0 :: b1 :: rest, hb, h => by
    have h0 : b0 < 256 := hb b0 (by simp)
    have hlen : rest.length % 2 = 0 := by
      simp only [List.length_cons] at h
      omega
    have ih := unitsToBytes_bytesToUnits rest (fun x hx => hb x (by simp [hx])) hlen
    have e0 : (b0 + 256 * b1) % 256 = b0 := by omega
    have e1 : (b0 + 256 * b1) / 256 = b1 := by omega
    rw [bytesToUnits, unitsToBytes, ih, e0, e1]

/-- C1: for every byte sequence `B` and every applicable unit width
(width 2 only when the length is even), the escaped text the renderer
produces is reversible: the reference decoder reconstructs exactly `B`
(for width 2, after reading the text as 16-bit units and splitting them
back into little-endian bytes), and a literal `%` byte/unit is rendered
as `%%`. -/
theorem C1_reversibility :
    (∀ (s : Bool) (B : List Nat), (∀ b ∈ B, b < 256) →
      decodeC8 (B.flatMap (DisplayVarC8Char s)) = some B)
  ∧ (∀ (s : Bool) (B : List Nat), (∀ b ∈ B, b < 256) → B.length % 2 = 0 →
      (decodeC16 ((bytesToUnits B).flatMap (DisplayVarC16Char s))).map unitsToBytes
        = some B)
  ∧ DisplayVarC8Char true 37 = [37, 37]
  ∧ DisplayVarC16Char true 37 = [37, 37] := by
  refine ⟨decodeC8_round, fun s B hB hlen => ?_, by decide, by decide⟩
  rw [decodeC16_round s (bytesToUnits B) (bytesToUnits_lt B hB)]
  simp [unitsToBytes_bytesToUnits B hB hlen]

/-- Witness for C1 at the concrete byte sequence `{0x41, 0x25, 0x00, 0x7F}`. -/
theorem C1_reversibility_witness :
    decodeC8 ([65, 37, 0, 127].flatMap (DisplayVarC8Char true)) = some [65, 37, 0, 127] :=
  C1_reversibility.1 true [65, 37, 0, 127] (by decide)

/-- C7: rendering the 4-byte sequence `{0x41, 0x25, 0x00, 0x7F}` with
treat-as-text true and unit width 1 yields exactly `"A%%%00%7f"` followed
by a space and `0x7f002541`, the little-endian 32-bit lowercase hex dump
(the list spells `"A%%%00%7f" 0x7f002541` in character codes). -/
theorem C7_example :
    DisplayVarC8 [65, 37, 0, 127] true =
      [34, 65, 37, 37, 37, 48, 48, 37, 55, 102, 34,
       32, 48, 120, 55, 102, 48, 48, 50, 53, 52, 49] := by
  decide

/-- C5: the renderer chooses unit width 2 exactly when the byte length is
even and the GUID is one of the two well-known wide-string GUIDs; in every
other case, including an odd length with a well-known GUID, it chooses
unit width 1. -/
theorem C5_width_heuristic (guid : EfiGuid) (len : Nat) :
    (DisplayVarWidth guid len = 2 ↔
      len % 2 = 0 ∧ (guid = gEfiQemuC16lGuid1 ∨ guid = gEfiQemuC16lGuid2))
  ∧ (¬(len % 2 = 0 ∧ (guid = gEfiQemuC16lGuid1 ∨ guid = gEfiQemuC16lGuid2)) →
      DisplayVarWidth guid len = 1) := by
  have hand : len &&& 1 = len % 2 := Nat.and_one_is_mod len
  unfold DisplayVarWidth
  rw [hand]
  constructor
  · split <;> simp_all
  · intro h
    rw [if_neg h]

/-- Witness for C5: an odd length forces width 1 even on a well-known GUID. -/
theorem C5_width_heuristic_witness : DisplayVarWidth gEfiQemuC16lGuid1 3 = 1 :=
  (C5_width_heuristic gEfiQemuC16lGuid1 3).2 (by decide)

/-- C6 counterexample: a 2-byte variable under a well-known wide-string
GUID is rendered by the CHAR16 path, whose whole output is `L"%0000"`:
it contains no `x` character (code 120) at all, hence no `0x...` numeric
dump, even though the byte length is exactly 2. -/
theorem C6_counterexample :
    DisplayVar gEfiQemuC16lGuid1 [0, 0] true = [76, 34, 37, 48, 48, 48, 48, 34]
  ∧ 120 ∉ DisplayVar gEfiQemuC16lGuid1 [0, 0] true := by
  constructor
  · decide
  · decide

/-- C6 amended: the numeric dump is appended only on the unit-width-1 path,
where it is present exactly for byte lengths 1, 2, 4 and 8; the
unit-width-2 path emits the escaped string alone, with no numeric dump. -/
theorem C6_numeric_dump_amended (guid : EfiGuid) (data : List Nat) (s : Bool) :
    (DisplayVarWidth guid data.length = 1 →
      DisplayVar guid data s =
        [34] ++ data.flatMap (DisplayVarC8Char s) ++ [34] ++ NumericDump data)
  ∧ (DisplayVarWidth guid data.length = 2 →
      DisplayVar guid data s =
        [76, 34] ++ (bytesToUnits data).flatMap (DisplayVarC16Char s) ++ [34])
  ∧ (NumericDump data ≠ [] ↔
      data.length = 1 ∨ data.length = 2 ∨ data.length = 4 ∨ data.length = 8) := by
  refine ⟨fun h1 => ?_, fun h2 => ?_, ?_⟩
  · rw [DisplayVar, if_neg (by rw [h1]; omega)]
    rfl
  · rw [DisplayVar, if_pos h2]
    rfl
  · unfold NumericDump
    split_ifs <;> simp_all [HexFixed]

/-- Witness for C6 amended: a 3-byte variable under a wide-string GUID has
odd length, takes the unit-width-1 path, and gets no dump (length 3 is not
among 1, 2, 4, 8, so the appended dump is empty). -/
theorem C6_numeric_dump_witness :
    DisplayVar gEfiQemuC16lGuid1 [0, 0, 0] true =
      [34] ++ [0, 0, 0].flatMap (DisplayVarC8Char true) ++ [34] ++ NumericDump [0, 0, 0] :=
  (C6_numeric_dump_amended gEfiQemuC16lGuid1 [0, 0, 0] true).1 (by decide)

/-- Once `AllocatePool` has run, `*Data` stays non-null: the allocation flag
is still set in whatever outcome the loop produces. -/
theorem getLoop_allocated (store : Nat → VarResp) :
    ∀ (fuel k buf : Nat) (out : FetchOut),
      getLoop store fuel k buf true = some out → out.allocated = true := by
  intro fuel
  induction fuel with
  | zero =>
    intro k buf out h
    simp [getLoop] at h
  | succ fuel ih =>
    intro k buf out h
    rw [getLoop] at h
    cases hst : store k with
    | found n d =>
      rw [hst] at h
      dsimp only at h
      by_cases hb : buf < n
      · rw [if_pos hb] at h
        exact ih _ _ _ h
      · rw [if_neg hb] at h
        cases h
        rfl
    | fail c =>
      rw [hst] at h
      dsimp only at h
      by_cases hc : c = EFI_BUFFER_TOO_SMALL
      · rw [if_pos hc] at h
        exact ih _ _ _ h
      · rw [if_neg hc] at h
        cases h
        rfl

/-- Termination of the growth loop once the store's reported size has
stabilized: if from call `N` on the size never changes, the loop run with
fuel `m + 2` from call `k` with `N ≤ k + m` reaches a successful fetch. -/
theorem getLoop_stabilized (sizes : Nat → Nat) (datas : Nat → List Nat) (N : Nat)
    (h : ∀ j, N ≤ j → sizes j = sizes N) :
    ∀ (m k buf : Nat) (alloc : Bool), N ≤ k + m →
      ∃ out, getLoop (fun j => VarResp.found (sizes j) (datas j)) (m + 2) k buf alloc
          = some out ∧ out.status = EFI_SUCCESS := by
  intro m
  induction m with
  | zero =>
    intro k buf alloc hk
    rw [getLoop]
    dsimp only
    by_cases hb : buf < sizes k
    · rw [if_pos hb, getLoop]
      dsimp only
      have hk1 : sizes (k + 1) = sizes N := h (k + 1) (by omega)
      have hk0 : sizes k = sizes N := h k (by omega)
      rw [if_neg (by omega)]
      exact ⟨_, rfl, rfl⟩
    · rw [if_neg hb]
      exact ⟨_, rfl, rfl⟩
  | succ m ih =>
    intro k buf alloc hk
    rw [getLoop]
    dsimp only
    by_cases hb : buf < sizes k
    · rw [if_pos hb]
      exact ih (k + 1) (sizes k) true (by omega)
    · rw [if_neg hb]
      exact ⟨_, rfl, rfl⟩

/-- C3: the growth loop of `GetNvramValue` (a) finishes successfully within
two store calls for a store that reports a required size on the empty probe
and then honours it, (b) when the second call reports a still larger size,
simply loops again (the run continues at a third call with the grown
buffer), and (c) terminates with success whenever the store's reported size
eventually stabilizes. -/
theorem C3_fetch_loop :
    (∀ (store : Nat → VarResp) (n m : Nat) (d0 d1 : List Nat),
      store 0 = VarResp.found n d0 → store 1 = VarResp.found m d1 → m ≤ n →
      ∃ out, getLoop store 2 0 0 false = some out ∧
        out.status = EFI_SUCCESS ∧ out.calls ≤ 2)
  ∧ (∀ (store : Nat → VarResp) (n n2 fuel : Nat) (d0 d1 : List Nat),
      store 0 = VarResp.found n d0 → store 1 = VarResp.found n2 d1 →
      0 < n → n < n2 →
      getLoop store (fuel + 2) 0 0 false = getLoop store fuel 2 n2 true)
  ∧ (∀ (sizes : Nat → Nat) (datas : Nat → List Nat) (N : Nat),
      (∀ j, N ≤ j → sizes j = sizes N) →
      ∃ out, getLoop (fun j => VarResp.found (sizes j) (datas j)) (N + 2) 0 0 false
          = some out ∧ out.status = EFI_SUCCESS) := by
  refine ⟨?_, ?_, ?_⟩
  · intro store n m d0 d1 h0 h1 hmn
    rw [getLoop, h0]
    dsimp only
    by_cases hn : 0 < n
    · rw [if_pos hn, getLoop, h1]
      dsimp only
      rw [if_neg (by omega)]
      exact ⟨_, rfl, rfl, by dsimp only; omega⟩
    · rw [if_neg hn]
      exact ⟨_, rfl, rfl, by dsimp only; omega⟩
  · intro store n n2 fuel d0 d1 h0 h1 hn hnn
    rw [getLoop, h0]
    dsimp only
    rw [if_pos hn, getLoop, h1]
    dsimp only
    rw [if_pos hnn]
  · intro sizes datas N h
    exact getLoop_stabilized sizes datas N h N 0 0 false (by omega)

/-- Witness for C3, part (a), at a concrete store: the empty probe reports
size 2, the second call succeeds with that size, and the loop stops after
exactly two calls. -/
theorem C3_fetch_loop_witness :
    ∃ out, getLoop (fun k => if k = 0 then VarResp.found 2 [0, 0]
        else VarResp.found 2 [7, 7]) 2 0 0 false = some out ∧
      out.status = EFI_SUCCESS ∧ out.calls ≤ 2 :=
  C3_fetch_loop.1 _ 2 2 [0, 0] [7, 7] rfl rfl (by omega)

/-- C10 counterexample: a store whose first probe fails with
`EFI_DEVICE_ERROR` makes the loop exit with that status while `*Data` is
still null, so the asserted property (the status being `EFI_NOT_FOUND`)
does not hold for every store response. -/
theorem C10_counterexample :
    getLoop (fun _ => VarResp.fail EFI_DEVICE_ERROR) 1 0 0 false
        = some ⟨EFI_DEVICE_ERROR, 0, [], 1, false⟩
  ∧ EFI_ERROR EFI_DEVICE_ERROR = true
  ∧ EFI_DEVICE_ERROR ≠ EFI_NOT_FOUND := by
  refine ⟨by decide, by decide, by decide⟩

/-- C10 amended: when the loop exits with a failure and no buffer was ever
allocated, the status is exactly the non-buffer-too-small failure code the
store returned on the very first probe; the assertion of the error branch
(`Status == EFI_NOT_FOUND`) therefore holds precisely for stores whose
first-probe failure is not-found, not for every store response. -/
theorem C10_assert_amended (store : Nat → VarResp) (fuel : Nat) (out : FetchOut)
    (h : getLoop store fuel 0 0 false = some out)
    (herr : EFI_ERROR out.status = true) (halloc : out.allocated = false) :
    ∃ c, store 0 = VarResp.fail c ∧ c ≠ EFI_BUFFER_TOO_SMALL ∧ out.status = c
      ∧ (out.status = EFI_NOT_FOUND ↔ store 0 = VarResp.fail EFI_NOT_FOUND) := by
  cases fuel with
  | zero => simp [getLoop] at h
  | succ fuel =>
    rw [getLoop] at h
    cases hst : store 0 with
    | found n d =>
      rw [hst] at h
      dsimp only at h
      by_cases hb : 0 < n
      · rw [if_pos hb] at h
        rw [getLoop_allocated store fuel 1 n out h] at halloc
        cases halloc
      · rw [if_neg hb] at h
        cases h
        simp [EFI_ERROR, EFI_SUCCESS, EFI_ERR_BIT] at herr
    | fail c =>
      rw [hst] at h
      dsimp only at h
      by_cases hc : c = EFI_BUFFER_TOO_SMALL
      · rw [if_pos hc] at h
        rw [getLoop_allocated store fuel 1 0 out h] at halloc
        cases halloc
      · rw [if_neg hc] at h
        cases h
        refine ⟨c, rfl, hc, rfl, ?_⟩
        dsimp only
        constructor
        · intro hce
          rw [hce]
        · intro hce
          cases hce
          rfl

/-- Witness for C10 amended at a concrete store whose first probe reports
not-found: the exit status is the first-probe failure code. -/
theorem C10_assert_witness :
    ∃ c, (fun _ => VarResp.fail EFI_NOT_FOUND) 0 = VarResp.fail c
      ∧ c ≠ EFI_BUFFER_TOO_SMALL
      ∧ (⟨EFI_NOT_FOUND, 0, [], 1, false⟩ : FetchOut).status = c
      ∧ ((⟨EFI_NOT_FOUND, 0, [], 1, false⟩ : FetchOut).status = EFI_NOT_FOUND ↔
          (fun _ => VarResp.fail EFI_NOT_FOUND) 0 = VarResp.fail EFI_NOT_FOUND) :=
  C10_assert_amended (fun _ => VarResp.fail EFI_NOT_FOUND) 1
    ⟨EFI_NOT_FOUND, 0, [], 1, false⟩ (by decide) (by decide) rfl

/-- Fetching an absent variable: one call, not-found, nothing allocated. -/
theorem getLoop_respOf_none :
    getLoop (respOf none) 2 0 0 false = some ⟨EFI_NOT_FOUND, 0, [], 1, false⟩ := by
  decide

/-- Fetching a present variable from a static store succeeds with the exact
stored size and bytes (in one call when the value is empty, two otherwise). -/
theorem getLoop_respOf_some (d : List Nat) :
    ∃ (calls : Nat) (alloc : Bool),
      getLoop (respOf (some d)) 2 0 0 false
        = some ⟨EFI_SUCCESS, d.length, d, calls, alloc⟩ := by
  cases d with
  | nil => exact ⟨1, false, by decide⟩
  | cons x xs =>
    refine ⟨2, true, ?_⟩
    rw [getLoop]
    dsimp only [respOf]
    rw [if_pos (by simp), getLoop]
    dsimp only [respOf]
    rw [if_neg (by omega)]

/-- Behaviour of `ToggleOrSetVar` on a present variable: the write list is
empty on an exact match without toggle, the single delete on an exact match
with toggle, and the single set of the desired bytes otherwise; the
returned status is always `EFI_SUCCESS`. -/
theorem ToggleOrSetVar_some (setStatus : Nat → List Nat → Nat)
    (d pref : List Nat) (toggle : Bool) :
    ToggleOrSetVar setStatus (some d) pref toggle =
      (if d = pref then
        (if toggle then
          some ⟨EFI_SUCCESS, [(0, [])], setVar setStatus (some d) 0 []⟩
        else
          some ⟨EFI_SUCCESS, [], some d⟩)
      else
        some ⟨EFI_SUCCESS, [(pref.length, pref)],
          setVar setStatus (some d) pref.length pref⟩) := by
  obtain ⟨calls, alloc, hfetch⟩ := getLoop_respOf_some d
  rw [ToggleOrSetVar, hfetch]
  dsimp only
  rw [if_neg (by decide)]
  by_cases hdp : d = pref
  · subst hdp
    rw [if_pos ⟨by decide, rfl, rfl⟩, if_pos rfl]
  · rw [if_neg (fun hh => hdp hh.2.2), if_neg hdp]

/-- Behaviour of `ToggleOrSetVar` on an absent variable: the single set of
the desired bytes is issued and `EFI_SUCCESS` is returned. -/
theorem ToggleOrSetVar_none (setStatus : Nat → List Nat → Nat)
    (pref : List Nat) (toggle : Bool) :
    ToggleOrSetVar setStatus none pref toggle =
      some ⟨EFI_SUCCESS, [(pref.length, pref)], setVar setStatus none pref.length pref⟩ := by
  rw [ToggleOrSetVar, getLoop_respOf_none]
  dsimp only
  rw [if_neg (by decide), if_neg (fun hh => hh.1 rfl)]

/-- C4: when the fetch finds an existing value byte-for-byte equal to the
desired value, non-toggle mode issues no write and toggle mode issues
exactly one delete (a zero-length write); the set of the desired bytes is
issued exactly when the variable is absent or its bytes differ. -/
theorem C4_exact_match (setStatus : Nat → List Nat → Nat)
    (d pref : List Nat) (toggle : Bool) :
    ((ToggleOrSetVar setStatus (some d) pref toggle).map MutOut.writes =
      some (if d = pref then (if toggle then [(0, [])] else [])
            else [(pref.length, pref)]))
  ∧ (ToggleOrSetVar setStatus none pref toggle).map MutOut.writes
      = some [(pref.length, pref)] := by
  constructor
  · rw [ToggleOrSetVar_some]
    by_cases hdp : d = pref
    · subst hdp
      rw [if_pos rfl, if_pos rfl]
      cases toggle <;> rfl
    · rw [if_neg hdp, if_neg hdp]
      rfl
  · rw [ToggleOrSetVar_none]
    rfl

/-- C8 counterexample: with a store whose `SetVariable` always fails with
`EFI_DEVICE_ERROR`, the mutator still issues the write and returns
`EFI_SUCCESS` — the write failure is discarded, not propagated. -/
theorem C8_counterexample :
    (ToggleOrSetVar badSet none [1] false).map MutOut.status = some EFI_SUCCESS
  ∧ (ToggleOrSetVar badSet none [1] false).map MutOut.writes = some [(1, [1])]
  ∧ EFI_ERROR (badSet 1 [1]) = true
  ∧ EFI_SUCCESS ≠ badSet 1 [1] := by
  refine ⟨by decide, by decide, by decide, by decide⟩

/-- C8 amended: `ToggleOrSetVar` discards the status of the `SetVariable`
calls it issues: whenever the initial fetch succeeds or reports not-found
(always the case against a static store), it returns `EFI_SUCCESS`
whatever status the store's write primitive produces. -/
theorem C8_status_amended (setStatus : Nat → List Nat → Nat)
    (v : Option (List Nat)) (pref : List Nat) (toggle : Bool) :
    (ToggleOrSetVar setStatus v pref toggle).map MutOut.status = some EFI_SUCCESS := by
  cases v with
  | none =>
    rw [ToggleOrSetVar_none]
    rfl
  | some d =>
    rw [ToggleOrSetVar_some]
    by_cases hdp : d = pref
    · rw [if_pos hdp]
      cases toggle <;> rfl
    · rw [if_neg hdp]
      rfl

/-- Non-toggle mutation with a nonempty desired value against a store whose
writes succeed: the returned record always carries `EFI_SUCCESS`, the write
list is empty exactly when the stored value already equals the desired one,
and the variable afterwards holds the desired bytes. -/
theorem ToggleOrSetVar_nontoggle (setStatus : Nat → List Nat → Nat)
    (hset : ∀ l b, EFI_ERROR (setStatus l b) = false)
    (v : Option (List Nat)) (pref : List Nat) (hpref : pref ≠ []) :
    ToggleOrSetVar setStatus v pref false =
      some ⟨EFI_SUCCESS, if v = some pref then [] else [(pref.length, pref)],
        some pref⟩ := by
  have hlen : pref.length ≠ 0 := fun h => hpref (List.length_eq_zero.mp h)
  have hsv : ∀ (cur : Option (List Nat)),
      setVar setStatus cur pref.length pref = some pref := by
    intro cur
    rw [setVar, hset]
    simp [hlen]
  cases v with
  | none =>
    rw [ToggleOrSetVar_none, hsv]
    simp
  | some d =>
    rw [ToggleOrSetVar_some]
    by_cases hdp : d = pref
    · subst hdp
      rw [if_pos rfl]
      simp
    · rw [if_neg hdp, hsv]
      simp [hdp]

/-- C2 counterexample: (i) when the variable already holds the desired
bytes, two successive non-toggle calls issue zero writes in total, not
exactly one; (ii) with an empty desired value, the second call issues a
write as well (a zero-length set is a delete, so the variable never comes
to "exist" with the desired bytes and every call writes again). -/
theorem C2_counterexample :
    (ToggleOrSetVarTwice goodSet (some [1]) [1] false).map
        (fun p => p.1.writes.length + p.2.writes.length) = some 0
  ∧ (ToggleOrSetVarTwice goodSet none [] false).map (fun p => p.2.writes)
      = some [(0, [])] := by
  refine ⟨by decide, by decide⟩

/-- C2 amended: for every nonempty desired value and every store state in
which writes succeed, two successive non-toggle calls issue at most one
write in total, the second call issues none, and afterwards the stored
bytes equal the desired bytes. -/
theorem C2_idempotent_amended (setStatus : Nat → List Nat → Nat)
    (hset : ∀ l b, EFI_ERROR (setStatus l b) = false)
    (v : Option (List Nat)) (pref : List Nat) (hpref : pref ≠ []) :
    ∃ r1 r2, ToggleOrSetVarTwice setStatus v pref false = some (r1, r2)
      ∧ r2.writes = []
      ∧ r1.writes.length + r2.writes.length ≤ 1
      ∧ r2.post = some pref := by
  have h1 := ToggleOrSetVar_nontoggle setStatus hset v pref hpref
  have h2 := ToggleOrSetVar_nontoggle setStatus hset (some pref) pref hpref
  rw [if_pos rfl] at h2
  refine ⟨⟨EFI_SUCCESS, if v = some pref then [] else [(pref.length, pref)], some pref⟩,
    ⟨EFI_SUCCESS, [], some pref⟩, ?_, rfl, ?_, rfl⟩
  · rw [ToggleOrSetVarTwice, h1]
    dsimp only
    rw [h2]
  · dsimp only
    split <;> simp

/-- Witness for C2 amended: starting from an absent variable, the first
call writes, the second does not, and the final state holds the bytes. -/
theorem C2_idempotent_witness :
    ∃ r1 r2, ToggleOrSetVarTwice goodSet none [1] false = some (r1, r2)
      ∧ r2.writes = []
      ∧ r1.writes.length + r2.writes.length ≤ 1
      ∧ r2.post = some [1] :=
  C2_idempotent_amended goodSet (fun _ _ => rfl) none [1] (by decide)

/-- A full enumeration pass (no display error, no quit keystroke) visits
every name in store order and returns the terminal `EFI_NOT_FOUND` the
store reported, whatever the starting key index and show-all flag. -/
theorem listVarsLoop_full (display : List Nat → Nat) (keys : Nat → Nat)
    (hdisp : ∀ n, EFI_ERROR (display n) = false)
    (hkeys : ∀ i, lowerKey (keys i) ≠ 113 ∧ lowerKey (keys i) ≠ 120) :
    ∀ (names : List (List Nat)) (ki : Nat) (showAll : Bool),
      listVarsLoop display keys names ki showAll = (EFI_NOT_FOUND, names) := by
  intro names
  induction names with
  | nil =>
    intro ki showAll
    rfl
  | cons n rest ih =>
    intro ki showAll
    rw [listVarsLoop]
    rw [if_neg (by rw [hdisp n]; exact Bool.false_ne_true)]
    cases showAll with
    | true =>
      rw [if_pos rfl, ih]
    | false =>
      rw [if_neg (Bool.false_ne_true), if_neg (by
        intro hq
        rcases hq with hq | hq
        · exact (hkeys ki).1 hq
        · exact (hkeys ki).2 hq)]
      rw [ih]

/-- C9 counterexample: a complete pass over a one-variable store, with a
display that succeeds and an operator pressing `a`, returns
`EFI_NOT_FOUND` — an error status, not a success outcome — even though
every key was visited and the terminal condition was reached cleanly. -/
theorem C9_counterexample :
    ListVars (fun _ => EFI_SUCCESS) (fun _ => 97) [[65]] = (EFI_NOT_FOUND, [[65]])
  ∧ EFI_ERROR EFI_NOT_FOUND = true
  ∧ EFI_NOT_FOUND ≠ EFI_SUCCESS := by
  refine ⟨by decide, by decide, by decide⟩

/-- C9 amended: a full enumeration pass that reaches the store's report of
no further key terminates after visiting every key in order, but completes
by returning the store's terminal not-found status, which is an error
code, rather than a success outcome (only the operator's quit keys produce
`EFI_SUCCESS`). -/
theorem C9_enumeration_amended (display : List Nat → Nat) (keys : Nat → Nat)
    (hdisp : ∀ n, EFI_ERROR (display n) = false)
    (hkeys : ∀ i, lowerKey (keys i) ≠ 113 ∧ lowerKey (keys i) ≠ 120)
    (names : List (List Nat)) :
    ListVars display keys names = (EFI_NOT_FOUND, names)
  ∧ EFI_ERROR EFI_NOT_FOUND = true :=
  ⟨listVarsLoop_full display keys hdisp hkeys names 0 false, by decide⟩

/-- Witness for C9 amended at a concrete two-variable store. -/
theorem C9_enumeration_witness :
    ListVars (fun _ => EFI_SUCCESS) (fun _ => 97) [[65], [66]]
        = (EFI_NOT_FOUND, [[65], [66]])
  ∧ EFI_ERROR EFI_NOT_FOUND = true :=
  C9_enumeration_amended (fun _ => EFI_SUCCESS) (fun _ => 97)
    (fun _ => rfl)
    (fun _ => by
      show lowerKey 97 ≠ 113 ∧ lowerKey 97 ≠ 120
      decide)
    [[65], [66]]
